import Mathlib

/-!
A Lean model of `remote_provisioners/kernel-launchers/shared/scripts/server_listener.py`.

Pure fragments of the Python module (response-address parsing, connection-file
augmentation, PKCS7 padding, envelope composition, the control-request
dispatch) are translated directly.  Effectful fragments (socket binds,
accepts, `os.kill`) are modelled by explicit oracles and event traces: a
`BindEnv` supplies the outcome of socket binds and of `random.randint`, and
the control listener consumes a list of connection events, producing the trace
of accepted connections, connection closes and delivered signals, together
with a final outcome (shutdown, still listening, or an uncaught exception).
-/

/-- One ASCII digit, as accepted by Python `int()` parsing. -/
def isAsciiDigit (c : Char) : Bool :=
  decide ('0' ≤ c) && decide (c ≤ '9')

/-- Tail of a Python integer literal after its first digit: digits, with a
single underscore allowed between two digits (Python `int()` grouping rule). -/
def digitTailOk : List Char → Bool
  | [] => true
  | ['_'] => false
  | '_' :: c :: rest => isAsciiDigit c && digitTailOk (c :: rest)
  | c :: rest => isAsciiDigit c && digitTailOk rest

/-- A nonempty digit sequence valid for Python `int()`: starts and ends with a
digit, underscores only between digits. -/
def digitSeqOk : List Char → Bool
  | [] => false
  | c :: rest => isAsciiDigit c && digitTailOk rest

/-- Numeric value of a digit sequence, ignoring grouping underscores. -/
def digitsValue (cs : List Char) : Nat :=
  (cs.filter (fun c => c != '_')).foldl (fun a c => a * 10 + (c.toNat - 48)) 0

/-- Unsigned part of Python `int(str)`: `none` models a raised `ValueError`. -/
def pyParseIntCore (cs : List Char) : Option Nat :=
  if digitSeqOk cs then some (digitsValue cs) else none

/-- ASCII whitespace stripped by Python `int(str)`. -/
def isPySpace (c : Char) : Bool :=
  c = ' ' || c = '\t' || c = '\n' || c = '\r' || c = Char.ofNat 11 || c = Char.ofNat 12

/-- Strip whitespace from both ends, as Python `str.strip()` does. -/
def trimChars (cs : List Char) : List Char :=
  ((cs.dropWhile isPySpace).reverse.dropWhile isPySpace).reverse

/-- Python `int(str)`: strip surrounding whitespace, optional sign, digits
with underscore grouping.  `none` models a raised `ValueError`. -/
def pyParseInt (s : String) : Option Int :=
  match trimChars s.toList with
  | '-' :: rest => (pyParseIntCore rest).map (fun n => -(n : Int))
  | '+' :: rest => (pyParseIntCore rest).map (fun n => (n : Int))
  | cs => (pyParseIntCore cs).map (fun n => (n : Int))

/-- Split on a separator character, Python `str.split(sep)` semantics:
`n` separators produce `n + 1` (possibly empty) groups. -/
def splitOnChar (sep : Char) : List Char → List (List Char)
  | [] => [[]]
  | c :: rest =>
    if c = sep then [] :: splitOnChar sep rest
    else
      match splitOnChar sep rest with
      | [] => [[c]]
      | g :: gs => (c :: g) :: gs

/-- Python `s.split(":")` on a string, groups rebuilt as strings. -/
def pySplitColon (s : String) : List String :=
  (splitOnChar ':' s.toList).map (fun g => String.mk g)

/-- JSON values as they appear in control requests and connection files. -/
inductive JVal where
  | num (n : Int)
  | str (s : String)
  | bool (b : Bool)
  | null
deriving DecidableEq, Repr

/-- Python `dict.get`: first binding of the key, if any. -/
def dictGet (d : List (String × JVal)) (k : String) : Option JVal :=
  match d with
  | [] => none
  | (k1, v) :: rest => if k1 = k then some v else dictGet rest k

/-- Python `dict[k] = v`: replace the binding in place when the key exists,
otherwise append a new binding (insertion order preserved). -/
def dictSet (d : List (String × JVal)) (k : String) (v : JVal) : List (String × JVal) :=
  match d with
  | [] => [(k, v)]
  | (k1, v1) :: rest => if k1 = k then (k, v) :: rest else (k1, v1) :: dictSet rest k v

/-- Python `d.get(k) is not None`: a binding to JSON `null` counts as absent,
exactly as `dict.get` returning `None` does. -/
def getPresent (d : List (String × JVal)) (k : String) : Option JVal :=
  match dictGet d k with
  | some JVal.null => none
  | x => x

/-- Python `int(v)` on a JSON value; `none` models a raised error. -/
def pyIntOfJVal : JVal → Option Int
  | JVal.num n => some n
  | JVal.bool b => some (if b then 1 else 0)
  | JVal.str s => pyParseInt s
  | JVal.null => none

/-- Python `bool(v)` on a JSON value. -/
def pyBoolOfJVal : JVal → Bool
  | JVal.num n => n != 0
  | JVal.bool b => b
  | JVal.str s => s != ""
  | JVal.null => false

/-! Secure payload codec (`_encrypt`, lines 32-55).  Byte strings are lists of
naturals.  PKCS7 padding to the 16-byte AES block (`Cryptodome.Util.Padding.pad`
with the default pkcs7 style) and ECB chunking are translated concretely; the
AES block permutation, the RSA PKCS1 v1.5 key wrap, base64 and `json.dumps` are
external library primitives, modelled as parameters with their inverse
primitives on the controller side. -/

/-- Version constant sent in the envelope (`LAUNCHER_VERSION = 1`). -/
def LAUNCHER_VERSION : Nat := 1

/-- PKCS7 padding to 16-byte blocks: append p copies of p, p = 16 - len mod 16. -/
def pad16 (bs : List Nat) : List Nat :=
  bs ++ List.replicate (16 - bs.length % 16) (16 - bs.length % 16)

/-- PKCS7 unpadding (the controller-side inverse, `Cryptodome` `unpad`):
reject when the length is not a positive multiple of 16, when the final byte
is not in 1..16, or when the trailing bytes are not all equal to it. -/
def unpad16 (bs : List Nat) : Option (List Nat) :=
  if bs.length % 16 ≠ 0 ∨ bs.length = 0 then none
  else
    let p := bs.getLastD 0
    if p < 1 ∨ 16 < p ∨ bs.length < p then none
    else if (bs.drop (bs.length - p)).all (fun b => b == p) then
      some (bs.take (bs.length - p))
    else none

/-- Split a byte string into its consecutive 16-byte blocks. -/
def chunk16 : List Nat → List (List Nat)
  | [] => []
  | b :: rest => (b :: rest).take 16 :: chunk16 ((b :: rest).drop 16)
termination_by bs => bs.length
decreasing_by simp [List.length_drop]; omega

/-- ECB mode: apply the block permutation to each 16-byte block. -/
def ecbApply (f : List Nat → List Nat) (bs : List Nat) : List Nat :=
  ((chunk16 bs).map f).flatten

/-- The JSON payload composed by `_encrypt`: schema version, base64 of the
RSA-wrapped AES key, base64 of the AES-encrypted connection info. -/
structure SecurePayload where
  version : Nat
  key : List Nat
  conn_info : List Nat
deriving DecidableEq, Repr

/-- External primitives used by `_encrypt`: the AES block permutation for a
session key, the RSA PKCS1 v1.5 wrap under the server public key, base64
encoding, and `json.dumps` of the payload object. -/
structure EncryptPrims where
  aesEncrypt : List Nat → List Nat → List Nat
  rsaEncrypt : List Nat → List Nat
  b64encode : List Nat → List Nat
  jsonEncodePayload : SecurePayload → List Nat

/-- The controller-side inverse primitives (test-only decrypt helper). -/
structure DecryptPrims where
  aesDecrypt : List Nat → List Nat → List Nat
  rsaDecrypt : List Nat → List Nat
  b64decode : List Nat → Option (List Nat)
  jsonDecodePayload : List Nat → Option SecurePayload

/-- `_encrypt` (lines 32-55): AES-ECB encrypt the padded connection info under
a fresh 16-byte key, wrap the key with the server public key, base64 both,
compose the versioned payload, JSON-serialize and base64 the whole. -/
def encryptConnInfo (P : EncryptPrims) (aesKey connInfoBytes : List Nat) : List Nat :=
  let encryptedConnInfo := ecbApply (P.aesEncrypt aesKey) (pad16 connInfoBytes)
  let b64ConnInfo := P.b64encode encryptedConnInfo
  let encryptedKey := P.b64encode (P.rsaEncrypt aesKey)
  P.b64encode (P.jsonEncodePayload ⟨LAUNCHER_VERSION, encryptedKey, b64ConnInfo⟩)

/-- The controller decrypt helper: base64-decode the envelope, parse the JSON
payload, base64-decode and RSA-unwrap the AES key, base64-decode the
ciphertext, AES-ECB decrypt and unpad. -/
def decryptConnInfo (D : DecryptPrims) (envelope : List Nat) : Option (List Nat) :=
  match D.b64decode envelope with
  | none => none
  | some payloadBytes =>
    match D.jsonDecodePayload payloadBytes with
    | none => none
    | some payload =>
      match D.b64decode payload.key with
      | none => none
      | some wrappedKey =>
        match D.b64decode payload.conn_info with
        | none => none
        | some ciphertext =>
          unpad16 (ecbApply (D.aesDecrypt (D.rsaDecrypt wrappedKey)) ciphertext)

/-- A concrete injective payload serialization used to instantiate the
`json.dumps`/`json.loads` pair in witnesses. -/
def payloadEncode (p : SecurePayload) : List Nat :=
  p.version :: p.key.length :: (p.key ++ p.conn_info)

/-- Left inverse of `payloadEncode`. -/
def payloadDecode (bs : List Nat) : Option SecurePayload :=
  match bs with
  | v :: klen :: rest => some ⟨v, rest.take klen, rest.drop klen⟩
  | _ => none

/-! Port allocator (`_select_ports`, `_select_socket`, `_get_candidate_port`,
lines 114-151).  Socket binds are modelled by an oracle environment: `free`
says whether a bind to a given nonzero port succeeds against the outside
world, `rand` is the stream of `random.randint(lower, upper)` outcomes, and
`osAssign` is the stream of ports the OS picks for wildcard (port 0) binds.
Sockets already bound within the call are tracked in `held`, so a port that
one probing socket holds cannot be bound again before the sockets close. -/

/-- The `RuntimeError` raised when the port range is exhausted; it carries the
range and retry bound that the message text reports. -/
structure PortErr where
  lowerPort : Int
  upperPort : Int
  maxRetries : Nat
deriving DecidableEq, Repr

/-- Message text of the exhaustion error (lines 139-142). -/
def portErrMessage (e : PortErr) : String :=
  "Failed to locate port within range " ++ toString e.lowerPort ++ ".." ++
    toString e.upperPort ++ " after " ++ toString e.maxRetries ++ " retries!"

/-- Oracles for the effectful parts of port selection. -/
structure BindEnv where
  free : Int → Bool
  osAssign : Nat → Int
  rand : Nat → Int

/-- Ports already bound by probing sockets of this call, plus the positions
consumed so far in the `rand` and `osAssign` oracle streams. -/
structure AllocState where
  held : List Int
  ri : Nat
  oi : Nat
deriving DecidableEq, Repr

/-- Result of `_select_socket`: the bound port or the raised error, the new
allocator state, and how many bind attempts were made. -/
structure SelOut where
  result : Except PortErr Int
  state : AllocState
  attempts : Nat

/-- The retry loop of `_select_socket` (lines 130-142).  Each iteration picks
a candidate via `_get_candidate_port` (port 0 when `upper - lower == 0`,
otherwise `random.randint(lower, upper)`) and attempts to bind it; a wildcard
bind succeeds with an OS-assigned port, a concrete bind succeeds when the port
is free and not already held.  `fuel` is the number of attempts still allowed
before `retries > max_port_range_retries` raises; it starts at
`maxRetries + 1`. -/
def selectSocketGo (env : BindEnv) (lowerPort upperPort : Int) (maxRetries : Nat) :
    Nat → AllocState → Nat → SelOut
  | 0, st, att => ⟨Except.error ⟨lowerPort, upperPort, maxRetries⟩, st, att⟩
  | fuel + 1, st, att =>
    if upperPort - lowerPort = 0 then
      ⟨Except.ok (env.osAssign st.oi),
        ⟨env.osAssign st.oi :: st.held, st.ri, st.oi + 1⟩, att + 1⟩
    else if env.rand st.ri = 0 then
      ⟨Except.ok (env.osAssign st.oi),
        ⟨env.osAssign st.oi :: st.held, st.ri + 1, st.oi + 1⟩, att + 1⟩
    else if env.free (env.rand st.ri) = true ∧ env.rand st.ri ∉ st.held then
      ⟨Except.ok (env.rand st.ri), ⟨env.rand st.ri :: st.held, st.ri + 1, st.oi⟩, att + 1⟩
    else if fuel = 0 then
      ⟨Except.error ⟨lowerPort, upperPort, maxRetries⟩, ⟨st.held, st.ri + 1, st.oi⟩, att + 1⟩
    else
      selectSocketGo env lowerPort upperPort maxRetries fuel ⟨st.held, st.ri + 1, st.oi⟩ (att + 1)

/-- `_select_socket` (lines 127-143): one initial attempt plus up to
`maxRetries` retries. -/
def selectSocket (env : BindEnv) (lowerPort upperPort : Int) (maxRetries : Nat)
    (st : AllocState) : SelOut :=
  selectSocketGo env lowerPort upperPort maxRetries (maxRetries + 1) st 0

/-- The loop of `_select_ports` (lines 116-121): bind `n` probing sockets in
turn, keeping every socket open, and collect their port numbers. -/
def selectPortsGo (env : BindEnv) (lowerPort upperPort : Int) (maxRetries : Nat) :
    Nat → AllocState → Except PortErr (List Int × AllocState)
  | 0, st => Except.ok ([], st)
  | n + 1, st =>
    let out := selectSocket env lowerPort upperPort maxRetries st
    match out.result with
    | Except.error e => Except.error e
    | Except.ok p =>
      match selectPortsGo env lowerPort upperPort maxRetries n out.state with
      | Except.error e => Except.error e
      | Except.ok (ps, st2) => Except.ok (p :: ps, st2)

/-- `_select_ports` (lines 114-124): select `count` ports, then close all the
probing sockets (the final state is discarded). -/
def selectPorts (env : BindEnv) (count : Nat) (lowerPort upperPort : Int)
    (maxRetries : Nat) : Except PortErr (List Int) :=
  match selectPortsGo env lowerPort upperPort maxRetries count ⟨[], 0, 0⟩ with
  | Except.error e => Except.error e
  | Except.ok (ps, _) => Except.ok ps

/-! Control listener (`get_server_request` lines 154-181, `server_listener`
lines 184-211).  Each loop iteration consumes one connection event: an accept
timeout, an accepted connection that sends no data, one whose data fails
`json.loads`, or one whose data parses to a JSON object.  The run records a
trace of accepted connections, connection closes and delivered signals, and
ends in a final outcome. -/

/-- What one `sock.accept` interval produced. -/
inductive ConnEvent where
  | timeout
  | emptyConn
  | malformed
  | request (req : List (String × JVal))
deriving DecidableEq, Repr

/-- Observable actions of the listener. -/
inductive TraceEv where
  | accepted
  | connClosed
  | signalSent (signum : Int)
deriving DecidableEq, Repr

/-- Uncaught exceptions that can escape the listener loop. -/
inductive ListenErr where
  | nullSocket
  | malformedRequest
  | signalDeliveryFailed
  | badSignumValue
deriving DecidableEq, Repr

/-- How a (finite prefix of a) listener run ended. -/
inductive Outcome where
  | shutdownExit
  | failed (e : ListenErr)
  | stillListening
deriving DecidableEq, Repr

/-- Trace plus final outcome of a listener run. -/
structure RunResult where
  trace : List TraceEv
  outcome : Outcome
deriving DecidableEq, Repr

/-- Numeric value of `signal.SIGUSR2` on Linux. -/
def SIGUSR2 : Int := 12

/-- `get_server_request` (lines 154-181) on one connection event: `accept` on
a `None` socket raises (`AttributeError`, re-raised since it is not a
timeout); a timeout is swallowed and yields no request; a drained connection
is always closed; empty data yields no request; data that fails `json.loads`
re-raises; otherwise the parsed request is returned. -/
def getServerRequest (sock : Option Unit) (ev : ConnEvent) :
    List TraceEv × Except ListenErr (Option (List (String × JVal))) :=
  match sock with
  | none => ([], Except.error ListenErr.nullSocket)
  | some _ =>
    match ev with
    | ConnEvent.timeout => ([], Except.ok none)
    | ConnEvent.emptyConn => ([TraceEv.accepted, TraceEv.connClosed], Except.ok none)
    | ConnEvent.malformed =>
        ([TraceEv.accepted, TraceEv.connClosed], Except.error ListenErr.malformedRequest)
    | ConnEvent.request req =>
        ([TraceEv.accepted, TraceEv.connClosed], Except.ok (some req))

/-- The request-processing body of `server_listener` (lines 201-211): skip
falsy (empty) requests; when `signum` is present, `os.kill(parent_pid,
signum)` — which raises `ProcessLookupError` when the supervised pid is gone —
followed by `SIGUSR2` when the signal is 2 under the `spark` cluster type;
when `shutdown` is present, its truthiness becomes the loop exit flag.
Returns the delivered signals and either the shutdown flag or the uncaught
exception. -/
def processRequest (parentAlive : Bool) (clusterType : Option String)
    (req : List (String × JVal)) : List TraceEv × Except ListenErr Bool :=
  if req = [] then ([], Except.ok false)
  else
    let afterSignum : List TraceEv × Except ListenErr Bool :=
      match getPresent req "signum" with
      | none => ([], Except.ok false)
      | some v =>
        match pyIntOfJVal v with
        | none => ([], Except.error ListenErr.badSignumValue)
        | some signum =>
          if parentAlive then
            if signum = 2 ∧ clusterType = some "spark" then
              ([TraceEv.signalSent signum, TraceEv.signalSent SIGUSR2], Except.ok false)
            else
              ([TraceEv.signalSent signum], Except.ok false)
          else ([], Except.error ListenErr.signalDeliveryFailed)
    match afterSignum with
    | (t, Except.error e) => (t, Except.error e)
    | (t, Except.ok _) =>
      match getPresent req "shutdown" with
      | some v => (t, Except.ok (pyBoolOfJVal v))
      | none => (t, Except.ok false)

/-- The `while not shutdown` loop of `server_listener` (lines 198-211) over a
finite stream of connection events, accumulating the trace. -/
def listenLoop (parentAlive : Bool) (clusterType : Option String) (sock : Option Unit) :
    List ConnEvent → List TraceEv → RunResult
  | [], acc => ⟨acc, Outcome.stillListening⟩
  | ev :: rest, acc =>
    match getServerRequest sock ev with
    | (t, Except.error e) => ⟨acc ++ t, Outcome.failed e⟩
    | (t, Except.ok none) => listenLoop parentAlive clusterType sock rest (acc ++ t)
    | (t, Except.ok (some req)) =>
      match processRequest parentAlive clusterType req with
      | (t2, Except.error e) => ⟨acc ++ t ++ t2, Outcome.failed e⟩
      | (t2, Except.ok sd) =>
        if sd then ⟨acc ++ t ++ t2, Outcome.shutdownExit⟩
        else listenLoop parentAlive clusterType sock rest (acc ++ t ++ t2)

/-- The listener loop started on a (possibly `None`) control socket. -/
def serverListenerLoop (parentAlive : Bool) (clusterType : Option String)
    (sock : Option Unit) (events : List ConnEvent) : RunResult :=
  listenLoop parentAlive clusterType sock events []

/-- Signal-delivery trace events. -/
def isSignalEv : TraceEv → Bool
  | TraceEv.signalSent _ => true
  | _ => false

/-! Handshake pusher and descriptor builder (`return_connection_info`, lines
58-100) and the `server_listener` entry (lines 184-211).  The network side
effects are recorded as events; the connection-file contents are a JSON
object given as input; `prepare_comm_socket` is represented by the port the
bound control socket received. -/

/-- Outbound network actions of the handshake push. -/
inductive NetEvent where
  | connect (ip : String) (port : Int)
  | send
deriving DecidableEq, Repr

/-- What `return_connection_info` produced: the control socket (`none` means
the pull-mode early return, before any socket work), the augmented connection
descriptor, and the outbound network events. -/
structure RCIResult where
  commSock : Option Unit
  desc : Option (List (String × JVal))
  net : List NetEvent
deriving DecidableEq, Repr

/-- The descriptor augmentation of lines 82-90: add `pid`, `pgid`,
`comm_port` and `kernel_id` to the loaded connection file object. -/
def augmentConnectionInfo (base : List (String × JVal)) (pid pgid commPort : Int)
    (kernelId : String) : List (String × JVal) :=
  dictSet
    (dictSet
      (dictSet
        (dictSet base "pid" (JVal.num pid))
        "pgid" (JVal.num pgid))
      "comm_port" (JVal.num commPort))
    "kernel_id" (JVal.str kernelId)

/-- `return_connection_info` (lines 58-100): split the response address on
`:`; anything but exactly two parts, or a port that `int()` rejects, is the
pull-mode early return (no socket is bound, nothing is sent).  Otherwise the
connection file is augmented, a connection to the controller is opened and
the encrypted payload is sent, and the bound control socket is returned. -/
def returnConnectionInfo (base : List (String × JVal)) (responseAddr : String)
    (pid pgid commPort : Int) (kernelId : String) : RCIResult :=
  let parts := pySplitColon responseAddr
  if parts.length ≠ 2 then ⟨none, none, []⟩
  else
    match pyParseInt (parts.getD 1 "") with
    | none => ⟨none, none, []⟩
    | some responsePort =>
      ⟨some (), some (augmentConnectionInfo base pid pgid commPort kernelId),
        [NetEvent.connect (parts.getD 0 "") responsePort, NetEvent.send]⟩

/-- Specification-side reading of `host:port`: exactly two colon-separated
parts with a port that Python `int()` accepts. -/
def parseResponseAddr (addr : String) : Option (String × Int) :=
  let parts := pySplitColon addr
  if parts.length = 2 then
    match pyParseInt (parts.getD 1 "") with
    | some p => some (parts.getD 0 "", p)
    | none => none
  else none

/-- `server_listener` (lines 184-211): run the handshake push, then enter the
control loop on whatever socket it returned — `none` included. -/
def serverListenerMain (base : List (String × JVal)) (responseAddr : String)
    (pid pgid commPort : Int) (kernelId : String) (parentAlive : Bool)
    (clusterType : Option String) (events : List ConnEvent) : RCIResult × RunResult :=
  let rci := returnConnectionInfo base responseAddr pid pgid commPort kernelId
  (rci, listenLoop parentAlive clusterType rci.commSock events [])

/-! Helper lemmas. -/

/-- Setting an absent key appends a binding at the end. -/
theorem dictSet_not_mem (d : List (String × JVal)) (k : String) (v : JVal)
    (h : k ∉ d.map Prod.fst) : dictSet d k v = d ++ [(k, v)] := by
  induction d with
  | nil => rfl
  | cons a rest ih =>
    obtain ⟨k1, v1⟩ := a
    simp only [List.map_cons, List.mem_cons, not_or] at h
    simp only [dictSet]
    rw [if_neg fun hk => h.1 hk.symm, ih h.2]
    rfl

/-- Lookup of a key bound on the left is unaffected by an appended tail. -/
theorem dictGet_append_left (d d2 : List (String × JVal)) (k : String)
    (h : k ∈ d.map Prod.fst) : dictGet (d ++ d2) k = dictGet d k := by
  induction d with
  | nil => simp at h
  | cons a rest ih =>
    obtain ⟨k1, v1⟩ := a
    by_cases hk : k1 = k
    · simp [dictGet, hk]
    · simp only [List.map_cons, List.mem_cons] at h
      rcases h with h | h
      · exact absurd h.symm hk
      · simp [dictGet, hk, ih h]

/-- Appending a binding for a different key preserves key absence. -/
theorem notMemAppendSingle (d : List (String × JVal)) (k1 k2 : String) (v : JVal)
    (h : k1 ∉ d.map Prod.fst) (hne : k1 ≠ k2) :
    k1 ∉ (d ++ [(k2, v)]).map Prod.fst := by
  simp only [List.map_append, List.mem_append, List.map_cons, List.map_nil,
    List.mem_cons, List.not_mem_nil, or_false]
  rintro (hc | hc)
  · exact h hc
  · exact hne hc

/-- Pull-mode early return: when the response address does not read as
`host:port`, `return_connection_info` does nothing. -/
theorem rci_parse_none (base : List (String × JVal)) (addr : String)
    (pid pgid commPort : Int) (kernelId : String)
    (h : parseResponseAddr addr = none) :
    returnConnectionInfo base addr pid pgid commPort kernelId = ⟨none, none, []⟩ := by
  unfold parseResponseAddr at h
  unfold returnConnectionInfo
  by_cases hl : (pySplitColon addr).length = 2
  · rw [if_pos hl] at h
    rw [if_neg (by simp [hl])]
    cases hp : pyParseInt ((pySplitColon addr).getD 1 "") with
    | none => rfl
    | some p => rw [hp] at h; exact absurd h (by simp)
  · rw [if_pos hl]

/-- Well-formed address: `return_connection_info` augments the descriptor,
connects to the parsed host and port, and sends the payload. -/
theorem rci_parse_some (base : List (String × JVal)) (addr : String)
    (pid pgid commPort : Int) (kernelId : String) (ip : String) (p : Int)
    (h : parseResponseAddr addr = some (ip, p)) :
    returnConnectionInfo base addr pid pgid commPort kernelId
      = ⟨some (), some (augmentConnectionInfo base pid pgid commPort kernelId),
         [NetEvent.connect ip p, NetEvent.send]⟩ := by
  unfold parseResponseAddr at h
  unfold returnConnectionInfo
  by_cases hl : (pySplitColon addr).length = 2
  · rw [if_pos hl] at h
    rw [if_neg (by simp [hl])]
    cases hp : pyParseInt ((pySplitColon addr).getD 1 "") with
    | none => rw [hp] at h; exact absurd h (by simp)
    | some q =>
      rw [hp] at h
      simp only [Option.some.injEq, Prod.mk.injEq] at h
      rw [h.1, h.2]
  · rw [if_neg hl] at h
    exact absurd h (by simp)

/-- A run whose single event is an accepted connection carrying a parsed
request traces the accept, the unconditional close, and whatever the request
processing produced. -/
theorem listenLoop_single_request (pa : Bool) (c : Option String)
    (req : List (String × JVal)) :
    (serverListenerLoop pa c (some ()) [ConnEvent.request req]).trace
      = [TraceEv.accepted, TraceEv.connClosed] ++ (processRequest pa c req).1 := by
  unfold serverListenerLoop
  cases hp : processRequest pa c req with
  | mk t2 pres =>
    cases pres with
    | error e => simp [listenLoop, getServerRequest, hp]
    | ok sd => cases sd <;> simp [listenLoop, getServerRequest, hp]

/-- Signals delivered for a `signum: 2` request with the parent process
alive: the requested signal, plus `SIGUSR2` exactly under the spark profile. -/
theorem processRequest_fst_signum2 (c : Option String) (req : List (String × JVal))
    (hne : req ≠ []) (hsig : getPresent req "signum" = some (JVal.num 2)) :
    (processRequest true c req).1
      = if c = some "spark" then [TraceEv.signalSent 2, TraceEv.signalSent SIGUSR2]
        else [TraceEv.signalSent 2] := by
  by_cases hc : c = some "spark" <;>
    cases hgd : getPresent req "shutdown" <;>
      simp [processRequest, hne, hsig, pyIntOfJVal, hc, hgd]

/-- C3: a control request containing `signum: 2` makes a listener under the
spark (cluster-aware) profile deliver exactly two OS signals — signal 2 then
the fixed `SIGUSR2` — while under any other profile exactly one signal
(signal 2) is delivered for the same request. -/
theorem signum_two_signal_count_by_cluster (req : List (String × JVal))
    (hne : req ≠ []) (hsig : getPresent req "signum" = some (JVal.num 2)) :
    ((serverListenerLoop true (some "spark") (some ())
        [ConnEvent.request req]).trace.filter isSignalEv
      = [TraceEv.signalSent 2, TraceEv.signalSent SIGUSR2]) ∧
    ∀ c : Option String, c ≠ some "spark" →
      (serverListenerLoop true c (some ())
          [ConnEvent.request req]).trace.filter isSignalEv
        = [TraceEv.signalSent 2] := by
  constructor
  · rw [listenLoop_single_request, processRequest_fst_signum2 _ _ hne hsig]
    simp [isSignalEv]
  · intro c hc
    rw [listenLoop_single_request, processRequest_fst_signum2 _ _ hne hsig, if_neg hc]
    simp [isSignalEv]

/-- Witness for C3 at the concrete request of the spec. -/
theorem signum_two_signal_count_by_cluster_witness :
    ((serverListenerLoop true (some "spark") (some ())
        [ConnEvent.request [("signum", JVal.num 2)]]).trace.filter isSignalEv
      = [TraceEv.signalSent 2, TraceEv.signalSent SIGUSR2]) ∧
    (serverListenerLoop true none (some ())
        [ConnEvent.request [("signum", JVal.num 2)]]).trace.filter isSignalEv
      = [TraceEv.signalSent 2] := by
  have h := signum_two_signal_count_by_cluster [("signum", JVal.num 2)] (by decide) (by rfl)
  exact ⟨h.1, h.2 none (by decide)⟩

/-- C1 counterexample: after a connection with malformed JSON, a further
pending request — here a shutdown request — is never accepted or processed:
the run has a single accept and ends with the uncaught decode error, so the
accept loop does not remain able to process subsequent requests. -/
theorem listener_malformed_second_request_unprocessed :
    serverListenerLoop true none (some ())
        [ConnEvent.malformed, ConnEvent.request [("shutdown", JVal.bool true)]]
      = ⟨[TraceEv.accepted, TraceEv.connClosed],
         Outcome.failed ListenErr.malformedRequest⟩ := by
  rfl

/-- C1 (amended): on a malformed control request the accepted connection is
unconditionally closed once draining ends, but the decode error is re-raised
and nothing in the listener loop catches it: the loop terminates at once and
no later event is consumed, whatever the profile or parent state. -/
theorem malformed_request_closes_conn_and_terminates_listener (parentAlive : Bool)
    (clusterType : Option String) (rest : List ConnEvent) :
    serverListenerLoop parentAlive clusterType (some ()) (ConnEvent.malformed :: rest)
      = ⟨[TraceEv.accepted, TraceEv.connClosed],
         Outcome.failed ListenErr.malformedRequest⟩ := by
  rfl

/-- C2 counterexample: with the supervised pid invalid, two consecutive
identical `signum` requests do not produce two reported failures with the
listener still accepting: the first `os.kill` failure escapes uncaught, the
run ends after one accept, and the second request is never read. -/
theorem dead_pid_two_signum_requests_single_failure :
    serverListenerLoop false none (some ())
        [ConnEvent.request [("signum", JVal.num 15)],
         ConnEvent.request [("signum", JVal.num 15)]]
      = ⟨[TraceEv.accepted, TraceEv.connClosed],
         Outcome.failed ListenErr.signalDeliveryFailed⟩ := by
  rfl

/-- C2 (amended): when the supervised process id no longer exists, the first
`signum` request makes signal delivery raise; the exception propagates out of
the accept loop, so the failure occurs once and the listener stops accepting. -/
theorem dead_pid_signal_failure_terminates_listener (clusterType : Option String)
    (s : Int) (rest : List ConnEvent) :
    serverListenerLoop false clusterType (some ())
        (ConnEvent.request [("signum", JVal.num s)] :: rest)
      = ⟨[TraceEv.accepted, TraceEv.connClosed],
         Outcome.failed ListenErr.signalDeliveryFailed⟩ := by
  rfl

/-- Step lemma: an accept producing an error ends the run at once. -/
theorem listenLoop_cons_error (pa : Bool) (c : Option String) (sock : Option Unit)
    (ev : ConnEvent) (rest : List ConnEvent) (acc t : List TraceEv) (e : ListenErr)
    (hg : getServerRequest sock ev = (t, Except.error e)) :
    listenLoop pa c sock (ev :: rest) acc = ⟨acc ++ t, Outcome.failed e⟩ := by
  simp [listenLoop, hg]

/-- Step lemma: an accept producing no request continues the loop. -/
theorem listenLoop_cons_none (pa : Bool) (c : Option String) (sock : Option Unit)
    (ev : ConnEvent) (rest : List ConnEvent) (acc t : List TraceEv)
    (hg : getServerRequest sock ev = (t, Except.ok none)) :
    listenLoop pa c sock (ev :: rest) acc = listenLoop pa c sock rest (acc ++ t) := by
  simp [listenLoop, hg]

/-- Step lemma: an accepted request is processed, and the loop continues only
when processing succeeded without the shutdown flag. -/
theorem listenLoop_cons_req (pa : Bool) (c : Option String) (sock : Option Unit)
    (ev : ConnEvent) (rest : List ConnEvent) (acc t t2 : List TraceEv)
    (req : List (String × JVal)) (pres : Except ListenErr Bool)
    (hg : getServerRequest sock ev = (t, Except.ok (some req)))
    (hp : processRequest pa c req = (t2, pres)) :
    listenLoop pa c sock (ev :: rest) acc
      = match pres with
        | Except.error e => ⟨acc ++ t ++ t2, Outcome.failed e⟩
        | Except.ok sd =>
          if sd then ⟨acc ++ t ++ t2, Outcome.shutdownExit⟩
          else listenLoop pa c sock rest (acc ++ t ++ t2) := by
  simp only [listenLoop, hg, hp]
  cases pres <;> simp

/-- Once a run ends in `shutdownExit`, the events after the shutdown request
were never consumed: appending further pending connections changes nothing. -/
theorem listenLoop_shutdown_frozen (pa : Bool) (c : Option String) (sock : Option Unit)
    (post : List ConnEvent) :
    ∀ (evs : List ConnEvent) (acc : List TraceEv) (r : RunResult),
      listenLoop pa c sock evs acc = r → r.outcome = Outcome.shutdownExit →
      listenLoop pa c sock (evs ++ post) acc = r := by
  intro evs
  induction evs with
  | nil =>
    intro acc r h ho
    rw [← h] at ho
    simp [listenLoop] at ho
  | cons ev rest ih =>
    intro acc r h ho
    rw [List.cons_append]
    cases hg : getServerRequest sock ev with
    | mk t res =>
      cases res with
      | error e =>
        rw [listenLoop_cons_error pa c sock ev rest acc t e hg] at h
        rw [← h] at ho
        simp at ho
      | ok oreq =>
        cases oreq with
        | none =>
          rw [listenLoop_cons_none pa c sock ev rest acc t hg] at h
          rw [listenLoop_cons_none pa c sock ev (rest ++ post) acc t hg]
          exact ih _ _ h ho
        | some req =>
          cases hp : processRequest pa c req with
          | mk t2 pres =>
            rw [listenLoop_cons_req pa c sock ev rest acc t t2 req pres hg hp] at h
            rw [listenLoop_cons_req pa c sock ev (rest ++ post) acc t t2 req pres hg hp]
            cases pres with
            | error e =>
              rw [← h] at ho
              simp at ho
            | ok sd =>
              cases sd with
              | true => exact h
              | false =>
                simp only [Bool.false_eq_true, if_false] at h ⊢
                exact ih _ _ h ho

/-- C9: a control request with `shutdown: true` terminates the accept loop as
soon as it is processed: no further accept iteration occurs, so any events
arriving after it leave the run unchanged. -/
theorem shutdown_request_stops_accept_loop (parentAlive : Bool)
    (clusterType : Option String) (sock : Option Unit)
    (events post : List ConnEvent) (r : RunResult)
    (h : serverListenerLoop parentAlive clusterType sock events = r)
    (ho : r.outcome = Outcome.shutdownExit) :
    serverListenerLoop parentAlive clusterType sock (events ++ post) = r :=
  listenLoop_shutdown_frozen parentAlive clusterType sock post events [] r h ho

/-- Witness for C9: a shutdown request followed by a pending signal request;
the run stops at the shutdown and the later request is never accepted. -/
theorem shutdown_request_stops_accept_loop_witness :
    serverListenerLoop true none (some ())
        ([ConnEvent.request [("shutdown", JVal.bool true)]]
          ++ [ConnEvent.request [("signum", JVal.num 9)]])
      = ⟨[TraceEv.accepted, TraceEv.connClosed], Outcome.shutdownExit⟩ :=
  shutdown_request_stops_accept_loop true none (some ())
    [ConnEvent.request [("shutdown", JVal.bool true)]]
    [ConnEvent.request [("signum", JVal.num 9)]]
    ⟨[TraceEv.accepted, TraceEv.connClosed], Outcome.shutdownExit⟩ (by rfl) (by rfl)

/-- C10: with a malformed controller address the handshake step returns the
pull-mode result — no connect, no send, a `None` control socket — yet the
control loop still starts and hands that `None` socket to the request wait,
whose `accept` fails immediately: no connection is ever accepted and the
control channel is inoperative. -/
theorem pull_mode_listener_inoperative (base : List (String × JVal)) (addr : String)
    (pid pgid commPort : Int) (kernelId : String) (parentAlive : Bool)
    (clusterType : Option String) (ev : ConnEvent) (evs : List ConnEvent)
    (h : parseResponseAddr addr = none) :
    (serverListenerMain base addr pid pgid commPort kernelId parentAlive clusterType
        (ev :: evs)).1 = ⟨none, none, []⟩ ∧
    (serverListenerMain base addr pid pgid commPort kernelId parentAlive clusterType
        (ev :: evs)).2 = ⟨[], Outcome.failed ListenErr.nullSocket⟩ := by
  have hr := rci_parse_none base addr pid pgid commPort kernelId h
  unfold serverListenerMain
  rw [hr]
  exact ⟨rfl, rfl⟩

/-- Witness for C10 at a concrete malformed address. -/
theorem pull_mode_listener_inoperative_witness :
    (serverListenerMain [] "badaddress" 1 2 3 "kid" true none [ConnEvent.timeout]).1
      = ⟨none, none, []⟩ ∧
    (serverListenerMain [] "badaddress" 1 2 3 "kid" true none [ConnEvent.timeout]).2
      = ⟨[], Outcome.failed ListenErr.nullSocket⟩ :=
  pull_mode_listener_inoperative [] "badaddress" 1 2 3 "kid" true none
    ConnEvent.timeout [] (by rfl)

/-- C4: a controller address that does not split into exactly two
colon-separated parts, or whose port segment Python `int()` rejects, makes
`return_connection_info` return without raising and without any outbound
connect or send (pull mode); a well-formed `host:port` address proceeds to
connect and transmit. -/
theorem response_addr_parse_decides_push (base : List (String × JVal)) (addr : String)
    (pid pgid commPort : Int) (kernelId : String) :
    (parseResponseAddr addr = none →
      returnConnectionInfo base addr pid pgid commPort kernelId = ⟨none, none, []⟩) ∧
    ∀ ip p, parseResponseAddr addr = some (ip, p) →
      returnConnectionInfo base addr pid pgid commPort kernelId
        = ⟨some (), some (augmentConnectionInfo base pid pgid commPort kernelId),
           [NetEvent.connect ip p, NetEvent.send]⟩ :=
  ⟨fun h => rci_parse_none base addr pid pgid commPort kernelId h,
   fun ip p h => rci_parse_some base addr pid pgid commPort kernelId ip p h⟩

/-- Witness for C4: one malformed and one well-formed address. -/
theorem response_addr_parse_decides_push_witness :
    returnConnectionInfo [] "nocolon" 1 2 3 "kid" = ⟨none, none, []⟩ ∧
    returnConnectionInfo [] "10.0.0.1:8877" 1 2 3 "kid"
      = ⟨some (), some (augmentConnectionInfo [] 1 2 3 "kid"),
         [NetEvent.connect "10.0.0.1" 8877, NetEvent.send]⟩ :=
  ⟨(response_addr_parse_decides_push [] "nocolon" 1 2 3 "kid").1 (by rfl),
   (response_addr_parse_decides_push [] "10.0.0.1:8877" 1 2 3 "kid").2
     "10.0.0.1" 8877 (by rfl)⟩

/-- C8: on a base descriptor that does not already use the four reserved
names, the augmentation appends exactly `pid`, `pgid`, `comm_port` and
`kernel_id`, and every binding of the base descriptor is unchanged. -/
theorem augment_appends_exactly_four (base : List (String × JVal))
    (pid pgid commPort : Int) (kernelId : String)
    (h1 : "pid" ∉ base.map Prod.fst) (h2 : "pgid" ∉ base.map Prod.fst)
    (h3 : "comm_port" ∉ base.map Prod.fst) (h4 : "kernel_id" ∉ base.map Prod.fst) :
    augmentConnectionInfo base pid pgid commPort kernelId
      = base ++ [("pid", JVal.num pid), ("pgid", JVal.num pgid),
                 ("comm_port", JVal.num commPort), ("kernel_id", JVal.str kernelId)] ∧
    ∀ k, k ∈ base.map Prod.fst →
      dictGet (augmentConnectionInfo base pid pgid commPort kernelId) k
        = dictGet base k := by
  have m2 := notMemAppendSingle base "pgid" "pid" (JVal.num pid) h2 (by decide)
  have m3a := notMemAppendSingle base "comm_port" "pid" (JVal.num pid) h3 (by decide)
  have m3 := notMemAppendSingle _ "comm_port" "pgid" (JVal.num pgid) m3a (by decide)
  have m4a := notMemAppendSingle base "kernel_id" "pid" (JVal.num pid) h4 (by decide)
  have m4b := notMemAppendSingle _ "kernel_id" "pgid" (JVal.num pgid) m4a (by decide)
  have m4 := notMemAppendSingle _ "kernel_id" "comm_port" (JVal.num commPort) m4b (by decide)
  have heq : augmentConnectionInfo base pid pgid commPort kernelId
      = base ++ [("pid", JVal.num pid), ("pgid", JVal.num pgid),
                 ("comm_port", JVal.num commPort), ("kernel_id", JVal.str kernelId)] := by
    unfold augmentConnectionInfo
    rw [dictSet_not_mem base _ _ h1, dictSet_not_mem _ _ _ m2,
      dictSet_not_mem _ _ _ m3, dictSet_not_mem _ _ _ m4]
    simp [List.append_assoc]
  refine ⟨heq, fun k hk => ?_⟩
  rw [heq]
  exact dictGet_append_left base _ k hk

/-- Witness for C8 on a two-field base descriptor. -/
theorem augment_appends_exactly_four_witness :
    augmentConnectionInfo [("shell_port", JVal.num 1), ("key", JVal.str "ab")] 7 8 9 "kid"
      = [("shell_port", JVal.num 1), ("key", JVal.str "ab"), ("pid", JVal.num 7),
         ("pgid", JVal.num 8), ("comm_port", JVal.num 9), ("kernel_id", JVal.str "kid")] ∧
    dictGet (augmentConnectionInfo [("shell_port", JVal.num 1), ("key", JVal.str "ab")]
        7 8 9 "kid") "key" = some (JVal.str "ab") := by
  have h := augment_appends_exactly_four
    [("shell_port", JVal.num 1), ("key", JVal.str "ab")] 7 8 9 "kid"
    (by decide) (by decide) (by decide) (by decide)
  refine ⟨h.1, ?_⟩
  rw [h.2 "key" (by decide)]
  rfl

/-- Under a restricted range `1 ≤ lower < upper` with `random.randint` in
range, a successful `_select_socket` returns its candidate: a port inside the
range, not yet held, and pushed onto the held list. -/
theorem selectSocketGo_ok (env : BindEnv) (l u : Int) (m : Nat)
    (hl : 1 ≤ l) (hlt : l < u) (hrand : ∀ i, l ≤ env.rand i ∧ env.rand i ≤ u) :
    ∀ (fuel : Nat) (st : AllocState) (att : Nat) (p : Int) (st2 : AllocState) (att2 : Nat),
      selectSocketGo env l u m fuel st att = ⟨Except.ok p, st2, att2⟩ →
      (l ≤ p ∧ p ≤ u) ∧ p ∉ st.held ∧ st2.held = p :: st.held := by
  intro fuel
  induction fuel with
  | zero =>
    intro st att p st2 att2 h
    simp [selectSocketGo] at h
  | succ f ih =>
    intro st att p st2 att2 h
    have hne : ¬(u - l = 0) := by omega
    have h0 : ¬(env.rand st.ri = 0) := by
      have := hrand st.ri
      omega
    rw [selectSocketGo, if_neg hne, if_neg h0] at h
    by_cases hb : env.free (env.rand st.ri) = true ∧ env.rand st.ri ∉ st.held
    · rw [if_pos hb] at h
      simp only [SelOut.mk.injEq, Except.ok.injEq] at h
      obtain ⟨h1, h2, h3⟩ := h
      subst h1
      subst h2
      exact ⟨hrand st.ri, hb.2, rfl⟩
    · rw [if_neg hb] at h
      by_cases hf : f = 0
      · rw [if_pos hf] at h
        simp at h
      · rw [if_neg hf] at h
        have := ih ⟨st.held, st.ri + 1, st.oi⟩ (att + 1) p st2 att2 h
        exact this

/-- Under the same hypotheses, a successful `_select_ports` run of `n`
sockets yields `n` ports, pairwise distinct, in range, and disjoint from the
ports already held. -/
theorem selectPortsGo_ok (env : BindEnv) (l u : Int) (m : Nat)
    (hl : 1 ≤ l) (hlt : l < u) (hrand : ∀ i, l ≤ env.rand i ∧ env.rand i ≤ u) :
    ∀ (n : Nat) (st : AllocState) (ps : List Int) (st2 : AllocState),
      selectPortsGo env l u m n st = Except.ok (ps, st2) →
      ps.length = n ∧ ps.Nodup ∧ ∀ p ∈ ps, (l ≤ p ∧ p ≤ u) ∧ p ∉ st.held := by
  intro n
  induction n with
  | zero =>
    intro st ps st2 h
    simp only [selectPortsGo, Except.ok.injEq, Prod.mk.injEq] at h
    obtain ⟨h1, h2⟩ := h
    subst h1
    simp
  | succ k ih =>
    intro st ps st2 h
    simp only [selectPortsGo] at h
    cases hs : (selectSocket env l u m st).result with
    | error e => rw [hs] at h; simp at h
    | ok p =>
      rw [hs] at h
      cases hrec : selectPortsGo env l u m k (selectSocket env l u m st).state with
      | error e => rw [hrec] at h; simp at h
      | ok pr =>
        obtain ⟨ps1, stx⟩ := pr
        rw [hrec] at h
        simp only [Except.ok.injEq, Prod.mk.injEq] at h
        obtain ⟨h1, h2⟩ := h
        subst h1
        have hfull : selectSocketGo env l u m (m + 1) st 0
            = ⟨Except.ok p, (selectSocket env l u m st).state,
               (selectSocket env l u m st).attempts⟩ := by
          rw [← hs]
          rfl
        have hfacts := selectSocketGo_ok env l u m hl hlt hrand (m + 1) st 0 p
          (selectSocket env l u m st).state (selectSocket env l u m st).attempts hfull
        have hrest := ih (selectSocket env l u m st).state ps1 stx hrec
        have hheld : (selectSocket env l u m st).state.held = p :: st.held := hfacts.2.2
        refine ⟨by simp [hrest.1], ?_, ?_⟩
        · rw [List.nodup_cons]
          refine ⟨fun hmem => ?_, hrest.2.1⟩
          have := (hrest.2.2 p hmem).2
          rw [hheld] at this
          exact this (List.mem_cons_self p st.held)
        · intro q hq
          rcases List.mem_cons.mp hq with hq | hq
          · subst hq
            exact ⟨hfacts.1, hfacts.2.1⟩
          · have := hrest.2.2 q hq
            rw [hheld] at this
            exact ⟨this.1, fun hmem => this.2 (List.mem_cons_of_mem p hmem)⟩

/-- C5 (amended): for a restricted port range with `1 ≤ lower < upper`, with
`random.randint` honouring its bounds, whenever `_select_ports` returns (it
may instead raise the exhaustion error) it returns exactly `count` pairwise
distinct ports, each within `[lower, upper]`.  The original claim also covers
restricted ranges of size one, where it fails: `upper - lower == 0` makes
`_get_candidate_port` return 0 and the OS assigns an arbitrary port. -/
theorem select_ports_ok_distinct_in_range (env : BindEnv) (count : Nat) (l u : Int)
    (m : Nat) (ports : List Int) (hl : 1 ≤ l) (hlt : l < u)
    (hrand : ∀ i, l ≤ env.rand i ∧ env.rand i ≤ u)
    (hcount : (count : Int) ≤ u - l + 1)
    (hok : selectPorts env count l u m = Except.ok ports) :
    ports.length = count ∧ ports.Nodup ∧ ∀ p ∈ ports, l ≤ p ∧ p ≤ u := by
  unfold selectPorts at hok
  cases hg : selectPortsGo env l u m count ⟨[], 0, 0⟩ with
  | error e => rw [hg] at hok; simp at hok
  | ok pr =>
    obtain ⟨ps, st2⟩ := pr
    rw [hg] at hok
    simp only [Except.ok.injEq] at hok
    subst hok
    have h := selectPortsGo_ok env l u m hl hlt hrand count ⟨[], 0, 0⟩ ps st2 hg
    exact ⟨h.1, h.2.1, fun p hp => (h.2.2 p hp).1⟩

/-- Witness for C5 (amended) on the range 100..200 with one port. -/
theorem select_ports_ok_distinct_in_range_witness :
    [(150 : Int)].length = 1 ∧ [(150 : Int)].Nodup ∧
      ∀ p ∈ [(150 : Int)], (100 : Int) ≤ p ∧ p ≤ 200 :=
  select_ports_ok_distinct_in_range ⟨fun _ => true, fun _ => 0, fun _ => 150⟩ 1 100 200 5
    [150] (by decide) (by decide)
    (fun i => (by decide : (100 : Int) ≤ 150 ∧ (150 : Int) ≤ 200)) (by decide) (by rfl)

/-- C5 counterexample: the valid restricted range `[5000, 5000]` of size one,
with `count = 1 ≤ 1` and every port free, yields an OS-assigned port (here
49152) that lies outside `[lower, upper]`, because `_get_candidate_port`
returns 0 whenever `upper - lower == 0`. -/
theorem select_ports_size_one_range_out_of_range :
    selectPorts ⟨fun _ => true, fun _ => 49152, fun _ => 5000⟩ 1 5000 5000 5
        = Except.ok [49152] ∧ ¬((49152 : Int) ≤ 5000) :=
  ⟨rfl, by decide⟩

/-- When every concrete bind fails and candidates are never the wildcard
port, the retry loop consumes all its fuel, advancing the `randint` stream
and the attempt counter by one per attempt, and raises the range error. -/
theorem selectSocketGo_all_fail (env : BindEnv) (l u : Int) (m : Nat)
    (hfree : ∀ p, env.free p = false) (hl : 1 ≤ l) (hlt : l < u)
    (hrand : ∀ i, l ≤ env.rand i) :
    ∀ (fuel : Nat) (st : AllocState) (att : Nat),
      selectSocketGo env l u m (fuel + 1) st att
        = ⟨Except.error ⟨l, u, m⟩, ⟨st.held, st.ri + (fuel + 1), st.oi⟩,
           att + (fuel + 1)⟩ := by
  intro fuel
  induction fuel with
  | zero =>
    intro st att
    have hne : ¬(u - l = 0) := by omega
    have h0 : ¬(env.rand st.ri = 0) := by
      have := hrand st.ri
      omega
    have hb : ¬(env.free (env.rand st.ri) = true ∧ env.rand st.ri ∉ st.held) := by
      rw [hfree]
      simp
    rw [selectSocketGo, if_neg hne, if_neg h0, if_neg hb, if_pos rfl]
  | succ f ihf =>
    intro st att
    have hne : ¬(u - l = 0) := by omega
    have h0 : ¬(env.rand st.ri = 0) := by
      have := hrand st.ri
      omega
    have hb : ¬(env.free (env.rand st.ri) = true ∧ env.rand st.ri ∉ st.held) := by
      rw [hfree]
      simp
    have hf : ¬(f + 1 = 0) := by omega
    rw [selectSocketGo, if_neg hne, if_neg h0, if_neg hb, if_neg hf,
      ihf ⟨st.held, st.ri + 1, st.oi⟩ (att + 1)]
    have e1 : st.ri + 1 + (f + 1) = st.ri + (f + 1 + 1) := by omega
    have e2 : att + 1 + (f + 1) = att + (f + 1 + 1) := by omega
    rw [e1, e2]

/-- The retry loop never makes more bind attempts than its fuel allows. -/
theorem selectSocketGo_attempts_le (env : BindEnv) (l u : Int) (m : Nat) :
    ∀ (fuel : Nat) (st : AllocState) (att : Nat),
      (selectSocketGo env l u m fuel st att).attempts ≤ att + fuel := by
  intro fuel
  induction fuel with
  | zero =>
    intro st att
    simp [selectSocketGo]
  | succ f ih =>
    intro st att
    rw [selectSocketGo]
    split
    · show att + 1 ≤ att + (f + 1)
      omega
    · split
      · show att + 1 ≤ att + (f + 1)
        omega
      · split
        · show att + 1 ≤ att + (f + 1)
          omega
        · split
          · show att + 1 ≤ att + (f + 1)
            omega
          · exact le_trans (ih ⟨st.held, st.ri + 1, st.oi⟩ (att + 1)) (by omega)

/-- C6: when every candidate bind in a restricted range fails, port selection
fails with the `RuntimeError` that names the exhausted range, raised after
exactly `max_retries + 1` bind attempts (one initial attempt plus
`max_retries` retries); no call ever makes more bind attempts than that
bound; and `_select_ports` propagates the error. -/
theorem select_socket_exhaustion_attempts (env : BindEnv) (l u : Int) (m : Nat)
    (st : AllocState) (hfree : ∀ p, env.free p = false) (hl : 1 ≤ l) (hlt : l < u)
    (hrand : ∀ i, l ≤ env.rand i) :
    ((selectSocket env l u m st).result = Except.error ⟨l, u, m⟩ ∧
      (selectSocket env l u m st).attempts = m + 1) ∧
    (∀ (env2 : BindEnv) (st2 : AllocState),
      (selectSocket env2 l u m st2).attempts ≤ m + 1) ∧
    selectPorts env 1 l u m = Except.error ⟨l, u, m⟩ := by
  have hx := selectSocketGo_all_fail env l u m hfree hl hlt hrand m st 0
  have hx0 := selectSocketGo_all_fail env l u m hfree hl hlt hrand m ⟨[], 0, 0⟩ 0
  refine ⟨?_, ?_, ?_⟩
  · unfold selectSocket
    rw [hx]
    refine ⟨rfl, ?_⟩
    show 0 + (m + 1) = m + 1
    omega
  · intro env2 st2
    exact le_trans (selectSocketGo_attempts_le env2 l u m (m + 1) st2 0) (by omega)
  · have hres : (selectSocket env l u m ⟨[], 0, 0⟩).result = Except.error ⟨l, u, m⟩ := by
      unfold selectSocket
      rw [hx0]
    simp [selectPorts, selectPortsGo, hres]

/-- Witness for C6: all binds fail on range 100..200 with `max_retries = 3`:
the error is raised after exactly 4 attempts, a differently-behaved
environment still makes at most 4 attempts, and `_select_ports` fails. -/
theorem select_socket_exhaustion_attempts_witness :
    ((selectSocket ⟨fun _ => false, fun _ => 0, fun _ => 150⟩ 100 200 3 ⟨[], 0, 0⟩).result
        = Except.error ⟨100, 200, 3⟩ ∧
      (selectSocket ⟨fun _ => false, fun _ => 0, fun _ => 150⟩ 100 200 3
          ⟨[], 0, 0⟩).attempts = 4) ∧
    (selectSocket ⟨fun _ => true, fun _ => 7, fun _ => 150⟩ 100 200 3
        ⟨[], 0, 0⟩).attempts ≤ 4 ∧
    selectPorts ⟨fun _ => false, fun _ => 0, fun _ => 150⟩ 1 100 200 3
      = Except.error ⟨100, 200, 3⟩ := by
  have h := select_socket_exhaustion_attempts ⟨fun _ => false, fun _ => 0, fun _ => 150⟩
    100 200 3 ⟨[], 0, 0⟩ (fun p => rfl) (by decide) (by decide)
    (fun i => (by decide : (100 : Int) ≤ 150))
  exact ⟨h.1, h.2.1 ⟨fun _ => true, fun _ => 7, fun _ => 150⟩ ⟨[], 0, 0⟩, h.2.2⟩

/-- Rejoining the 16-byte blocks restores the byte string (bounded form). -/
theorem chunk16_flatten_aux :
    ∀ (n : Nat) (bs : List Nat), bs.length ≤ n → (chunk16 bs).flatten = bs := by
  intro n
  induction n with
  | zero =>
    intro bs h
    cases bs with
    | nil => simp [chunk16]
    | cons b t => simp at h
  | succ k ih =>
    intro bs h
    cases bs with
    | nil => simp [chunk16]
    | cons b t =>
      simp only [chunk16, List.flatten_cons]
      rw [ih ((b :: t).drop 16)
        (by simp only [List.length_drop, List.length_cons] at h ⊢; omega)]
      exact List.take_append_drop 16 (b :: t)

/-- Rejoining the 16-byte blocks restores the byte string. -/
theorem chunk16_flatten (bs : List Nat) : (chunk16 bs).flatten = bs :=
  chunk16_flatten_aux bs.length bs le_rfl

/-- All blocks of a byte string of length divisible by 16 have length 16
(bounded form). -/
theorem chunk16_blocks_len_aux :
    ∀ (n : Nat) (bs : List Nat), bs.length ≤ n → bs.length % 16 = 0 →
      ∀ c ∈ chunk16 bs, c.length = 16 := by
  intro n
  induction n with
  | zero =>
    intro bs h hm c hc
    cases bs with
    | nil => simp [chunk16] at hc
    | cons b t => simp at h
  | succ k ih =>
    intro bs h hm c hc
    cases bs with
    | nil => simp [chunk16] at hc
    | cons b t =>
      simp only [List.length_cons] at h hm
      have hge : 16 ≤ t.length + 1 := by omega
      simp only [chunk16, List.mem_cons] at hc
      rcases hc with hc | hc
      · subst hc
        simp only [List.length_take, List.length_cons]
        omega
      · exact ih ((b :: t).drop 16)
          (by simp only [List.length_drop, List.length_cons]; omega)
          (by simp only [List.length_drop, List.length_cons]; omega) c hc

/-- All blocks of a byte string of length divisible by 16 have length 16. -/
theorem chunk16_blocks_len (bs : List Nat) (hm : bs.length % 16 = 0) :
    ∀ c ∈ chunk16 bs, c.length = 16 :=
  chunk16_blocks_len_aux bs.length bs le_rfl hm

/-- Chunking after prepending one full block peels that block off. -/
theorem chunk16_append_block (c rest : List Nat) (hc : c.length = 16) :
    chunk16 (c ++ rest) = c :: chunk16 rest := by
  cases c with
  | nil => simp at hc
  | cons x ct =>
    rw [List.cons_append]
    simp only [chunk16]
    rw [← List.cons_append, List.take_left' hc, List.drop_left' hc]

/-- Chunking the flattening of a list of full blocks restores the blocks. -/
theorem chunk16_flatten_blocks :
    ∀ (cs : List (List Nat)), (∀ c ∈ cs, c.length = 16) →
      chunk16 cs.flatten = cs := by
  intro cs
  induction cs with
  | nil => intro h; simp [chunk16]
  | cons c cs1 ih =>
    intro h
    rw [List.flatten_cons, chunk16_append_block c cs1.flatten (h c (by simp))]
    rw [ih (fun d hd => h d (List.mem_cons_of_mem c hd))]

/-- ECB decryption undoes ECB encryption on whole-block inputs, for any
length-preserving block permutation and its inverse. -/
theorem ecbApply_roundtrip (f g : List Nat → List Nat)
    (hlen : ∀ b, b.length = 16 → (f b).length = 16)
    (hinv : ∀ b, b.length = 16 → g (f b) = b)
    (bs : List Nat) (hbs : bs.length % 16 = 0) :
    ecbApply g (ecbApply f bs) = bs := by
  unfold ecbApply
  have hblocks := chunk16_blocks_len bs hbs
  have h1 : chunk16 (((chunk16 bs).map f).flatten) = (chunk16 bs).map f := by
    apply chunk16_flatten_blocks
    intro c hc
    obtain ⟨c0, hc0, hceq⟩ := List.mem_map.mp hc
    rw [← hceq]
    exact hlen c0 (hblocks c0 hc0)
  rw [h1, List.map_map]
  have h2 : (chunk16 bs).map (g ∘ f) = (chunk16 bs).map id :=
    List.map_congr_left (fun c hc => hinv c (hblocks c hc))
  rw [h2, List.map_id]
  exact chunk16_flatten bs

/-- Unpadding a byte string extended with `k + 1` padding bytes of value
`k + 1` recovers the byte string, when the padded length is a multiple of
the block size. -/
theorem unpad16_append_replicate (bs : List Nat) (k : Nat) (hk : k + 1 ≤ 16)
    (hm : (bs.length + (k + 1)) % 16 = 0) :
    unpad16 (bs ++ List.replicate (k + 1) (k + 1)) = some bs := by
  have hL : (bs ++ List.replicate (k + 1) (k + 1)).length = bs.length + (k + 1) := by
    simp
  have hlast : (bs ++ List.replicate (k + 1) (k + 1)).getLastD 0 = k + 1 := by
    rw [List.getLastD_eq_getLast?]
    rw [List.replicate_succ', ← List.append_assoc, List.getLast?_concat]
    rfl
  unfold unpad16
  rw [hL, hlast]
  rw [if_neg (by omega)]
  rw [if_neg (by omega)]
  have hsub : bs.length + (k + 1) - (k + 1) = bs.length := by omega
  rw [hsub]
  have hall : ((bs ++ List.replicate (k + 1) (k + 1)).drop bs.length).all
      (fun b => b == k + 1) = true := by
    rw [List.drop_left]
    simp [List.all_eq_true, List.mem_replicate]
  rw [if_pos hall, List.take_left]

/-- PKCS7 unpadding undoes PKCS7 padding, for payloads of any length. -/
theorem unpad16_pad16 (bs : List Nat) : unpad16 (pad16 bs) = some bs := by
  have hmodlt : bs.length % 16 < 16 := Nat.mod_lt _ (by omega)
  have hp : 16 - bs.length % 16 = (16 - bs.length % 16 - 1) + 1 := by omega
  rw [pad16, hp]
  exact unpad16_append_replicate bs (16 - bs.length % 16 - 1) (by omega) (by omega)

/-- The padded payload always has whole-block length. -/
theorem pad16_length_mod (bs : List Nat) : (pad16 bs).length % 16 = 0 := by
  have hmodlt : bs.length % 16 < 16 := Nat.mod_lt _ (by omega)
  simp only [pad16, List.length_append, List.length_replicate]
  omega

/-- The helper payload serialization is injective with `payloadDecode` as
left inverse. -/
theorem payloadDecode_encode (p : SecurePayload) :
    payloadDecode (payloadEncode p) = some p := by
  simp [payloadEncode, payloadDecode, List.take_left, List.drop_left]

/-- C7: for every plaintext byte string and every matching set of cipher
primitives — a length-preserving AES block permutation with its inverse, an
RSA wrap with its unwrap, base64 with its decoder, and the payload JSON
codec — decrypting the `_encrypt` output (base64-decode the envelope, parse
the payload, unwrap the AES key, AES-decrypt and unpad the connection info)
recovers the exact original plaintext bytes. -/
theorem encrypt_decrypt_roundtrip (P : EncryptPrims) (D : DecryptPrims)
    (aesKey pt : List Nat)
    (hb64 : ∀ x, D.b64decode (P.b64encode x) = some x)
    (hjson : ∀ p, D.jsonDecodePayload (P.jsonEncodePayload p) = some p)
    (hrsa : D.rsaDecrypt (P.rsaEncrypt aesKey) = aesKey)
    (haes : ∀ b, b.length = 16 → D.aesDecrypt aesKey (P.aesEncrypt aesKey b) = b)
    (haeslen : ∀ b, b.length = 16 → (P.aesEncrypt aesKey b).length = 16) :
    decryptConnInfo D (encryptConnInfo P aesKey pt) = some pt := by
  unfold encryptConnInfo decryptConnInfo
  simp only [hb64, hjson, hrsa]
  rw [ecbApply_roundtrip (P.aesEncrypt aesKey) (D.aesDecrypt aesKey) haeslen haes
    (pad16 pt) (pad16_length_mod pt)]
  exact unpad16_pad16 pt

/-- Witness for C7: identity-style primitives and a 17-byte plaintext (one
block plus one byte). -/
theorem encrypt_decrypt_roundtrip_witness :
    decryptConnInfo ⟨fun _ b => b, id, some, payloadDecode⟩
        (encryptConnInfo ⟨fun _ b => b, id, id, payloadEncode⟩ [1, 2, 3]
          [10, 20, 30, 40, 50, 60, 70, 80, 90, 100, 110, 120, 130, 140, 150, 160, 170])
      = some [10, 20, 30, 40, 50, 60, 70, 80, 90, 100, 110, 120, 130, 140, 150, 160, 170] :=
  encrypt_decrypt_roundtrip ⟨fun _ b => b, id, id, payloadEncode⟩
    ⟨fun _ b => b, id, some, payloadDecode⟩ [1, 2, 3]
    [10, 20, 30, 40, 50, 60, 70, 80, 90, 100, 110, 120, 130, 140, 150, 160, 170]
    (fun _ => rfl) payloadDecode_encode rfl (fun _ _ => rfl) (fun _ h => h)
